import Mathlib

/-!
Shallow embedding of the Timeline Composition Engine of the
auto-video-editor repository (`src/editor.py`, `Editor.edit`).

Times and durations are modelled as rationals (`ℚ`); Python dictionary
entries that may be missing are modelled as `Option` fields with the
exact defaults the source substitutes via `.get`.  The pixel-level
MoviePy clip construction (ImageClip sizing, TextClip rendering, file
encoding) is out of scope per the specification; the embedding covers
the scheduling and composition logic: segment clamping and ordering,
overlay placement with the bisect-accelerated lookup, crossfade
capping, and the audio-mix decision table.
-/

namespace VideoEdit

/-- A raw segment entry of the plan, a dictionary `{"start": .., "end": ..}`
in which either key may be missing (editor.py lines 80, 107-109). -/
structure RawSeg where
  start? : Option ℚ
  stop? : Option ℚ
deriving DecidableEq

/-- A graphic request `{"timestamp": .., "duration": .., "prompt": ..}`;
the prompt plays no role in composition (editor.py lines 92-97, 133). -/
structure GraphicReq where
  timestamp? : Option ℚ
  duration? : Option ℚ
deriving DecidableEq

/-- A caption entry `{"start": .., "end": .., "text": ..}`
(editor.py lines 158-161). -/
structure Caption where
  start? : Option ℚ
  stop? : Option ℚ
  text : String
deriving DecidableEq

/-- The editing plan (`analysis_data`): three optional arrays, a missing
key behaving as the empty list (editor.py lines 80, 92, 105). -/
structure Plan where
  segments : List RawSeg
  graphics : List GraphicReq
  captions : List Caption
deriving DecidableEq

/-- `float(seg.get("start", 0))` (editor.py line 108). -/
def RawSeg.startVal (s : RawSeg) : ℚ := s.start?.getD 0

/-- `float(seg.get("end", video.duration))` (editor.py line 109). -/
def RawSeg.stopVal (vd : ℚ) (s : RawSeg) : ℚ := s.stop?.getD vd

/-- `float(req.get("timestamp", 0))` (editor.py line 96). -/
def GraphicReq.tsVal (g : GraphicReq) : ℚ := g.timestamp?.getD 0

/-- `float(graphic_req.get("duration", 3.0))` (editor.py line 133). -/
def GraphicReq.durVal (g : GraphicReq) : ℚ := g.duration?.getD 3

/-- `float(cap.get("start", 0))` (editor.py line 159). -/
def Caption.startVal (c : Caption) : ℚ := c.start?.getD 0

/-- `float(cap.get("end", 0))` (editor.py line 160). -/
def Caption.stopVal (c : Caption) : ℚ := c.stop?.getD 0

/-- Line 80-83: `segments = analysis_data.get("segments", [])`, replaced
by a single whole-video entry when the list is empty. -/
def effectiveSegments (vd : ℚ) (p : Plan) : List RawSeg :=
  if p.segments.isEmpty then [⟨some 0, some vd⟩] else p.segments

/-- Line 88: `segments.sort(key=lambda x: x["start"])`.  Python's list
sort is stable on the key; the key lookup `x["start"]` raises `KeyError`
when an entry has no `start` field, and that exception escapes `edit`
(the sort is outside every `try` block).  `Except.error` models the
escaped `KeyError`. -/
def sortSegments (l : List RawSeg) : Except Unit (List RawSeg) :=
  if ∀ s ∈ l, s.start?.isSome then
    Except.ok (List.insertionSort (fun a b => a.startVal ≤ b.startVal) l)
  else Except.error ()

/-- Lines 108-113: clamp `start = max(0, start)`, `end = min(video.duration, end)`. -/
def clampSeg (vd : ℚ) (s : RawSeg) : ℚ × ℚ :=
  (max 0 s.startVal, min vd (s.stopVal vd))

/-- Lines 107-116: clamp every entry and skip it when `start >= end`. -/
def clampFilter (vd : ℚ) (l : List RawSeg) : List (ℚ × ℚ) :=
  (l.map (clampSeg vd)).filter (fun se => decide (se.1 < se.2))

/-- The Segment Clipper as the source runs it: line 88 sorts the raw
entries by their raw `start`, then lines 107-116 clamp and drop
degenerate entries. -/
def codeSegmentClipper (vd : ℚ) (l : List RawSeg) : Except Unit (List (ℚ × ℚ)) :=
  match sortSegments l with
  | Except.error e => Except.error e
  | Except.ok sorted => Except.ok (clampFilter vd sorted)

/-- Lines 93-97: `(t, i, req)` triples with `t = float(req.get("timestamp", 0))`
and `i` the index into the plan's graphics list. -/
def graphicEntries (gs : List GraphicReq) : List (ℚ × ℕ × GraphicReq) :=
  gs.enum.map (fun p => (p.2.tsVal, p.1, p.2))

/-- Line 100: `sorted_graphics.sort(key=lambda x: x[0])` (stable). -/
def sortedGraphics (gs : List GraphicReq) : List (ℚ × ℕ × GraphicReq) :=
  List.insertionSort (fun a b => a.1 ≤ b.1) (graphicEntries gs)

/-- Line 102: `g_timestamps = [x[0] for x in sorted_graphics]`. -/
def gTimestamps (gs : List GraphicReq) : List ℚ :=
  (sortedGraphics gs).map (fun x => x.1)

/-- `bisect.bisect_left(ts, x)` on an ascending list: the index of the
first element `≥ x`, i.e. the length of the leading run of elements
`< x` (editor.py line 128 relies on the list being sorted). -/
def bisectLeft (ts : List ℚ) (x : ℚ) : ℕ :=
  (ts.takeWhile (fun t => decide (t < x))).length

/-- A graphic overlay placed into one segment, in segment-relative time
(`set_start(rel_start).set_duration(duration)`, lines 148-150). -/
structure GPlaced where
  idx : ℕ
  relStart : ℚ
  dur : ℚ
deriving DecidableEq

/-- A caption placed into one segment (lines 187-189). -/
structure CPlaced where
  relStart : ℚ
  dur : ℚ
  text : String
deriving DecidableEq

/-- Lines 130-153, body of the per-graphic loop.  `assets i` models
`graphic_paths.get(i)` returning a path that exists on disk
(`if img_path and os.path.exists(img_path)`, lines 131-132). -/
def placeGraphic (assets : ℕ → Bool) (s e : ℚ) (x : ℚ × ℕ × GraphicReq) : Option GPlaced :=
  if assets x.2.1 then
    if s < x.1 + x.2.2.durVal then
      if 0 < min (x.1 + x.2.2.durVal) e - max x.1 s then
        some ⟨x.2.1, max 0 (x.1 - s), min (x.1 + x.2.2.durVal) e - max x.1 s⟩
      else none
    else none
  else none

/-- Lines 128-153: candidates are `sorted_graphics[:bisect_left(g_timestamps, end)]`,
each run through the overlap computation. -/
def graphicPlacements (assets : ℕ → Bool) (gs : List GraphicReq) (s e : ℚ) : List GPlaced :=
  ((sortedGraphics gs).take (bisectLeft (gTimestamps gs) e)).filterMap
    (placeGraphic assets s e)

/-- Lines 158-174, body of the per-caption loop: skip empty text, keep on
`c_end > start and c_start < end`, and require the overlap to exceed the
0.5 s minimum caption duration (line 174). -/
def placeCaption (s e : ℚ) (c : Caption) : Option CPlaced :=
  if c.text = "" then none
  else if s < c.stopVal ∧ c.startVal < e then
    if 1/2 < min c.stopVal e - max c.startVal s then
      some ⟨max 0 (c.startVal - s), min c.stopVal e - max c.startVal s, c.text⟩
    else none
  else none

/-- Lines 158-174: every caption is tested against the segment. -/
def captionPlacements (caps : List Caption) (s e : ℚ) : List CPlaced :=
  caps.filterMap (placeCaption s e)

/-- `min(c.duration for c in clips)` (line 257); the generator is only
evaluated with at least one clip. -/
def listMin : List ℚ → ℚ
  | [] => 0
  | d :: ds => ds.foldl min d

/-- Lines 253-263: the crossfade applied to every clip after the first,
`some` when the `crossfade > 0 and len(clips) > 1` branch is taken,
carrying `min(crossfade, max(0, min_duration - 0.1))`. -/
def plannedCrossfade (c : ℚ) (durs : List ℚ) : Option ℚ :=
  if 0 < c ∧ 1 < durs.length then
    some (min c (max 0 (listMin durs - 1/10)))
  else none

/-- The background music input: only its duration matters for
composition (`AudioFileClip(music).duration`, lines 283-286). -/
structure MusicIn where
  duration : ℚ
deriving DecidableEq

/-- The music track after lines 286-292: looped (`afx.audio_loop`) when
shorter than the final duration, else trimmed (`subclip(0, final.duration)`),
then volume-scaled (`volumex(music_volume)`).  The source applies no
audio fade effect to the music, so the envelope fields record a fade of
zero seconds on either side. -/
structure MusicTrack where
  len : ℚ
  looped : Bool
  gain : ℚ
  fadeIn : ℚ
  fadeOut : ℚ
deriving DecidableEq

/-- Lines 286-292: loop or trim to the final duration, then scale. -/
def processMusic (m : MusicIn) (finalDur vol : ℚ) : MusicTrack :=
  if m.duration < finalDur then ⟨finalDur, true, vol, 0, 0⟩
  else ⟨finalDur, false, vol, 0, 0⟩

/-- The audio outcome of one composition: the four rows of the decision
table.  `mixed` keeps the original track at its unscaled gain, the
source passes `final.audio` into `CompositeAudioClip` untouched
(line 296). -/
inductive AudioDirective where
  | silence : AudioDirective
  | passThrough : AudioDirective
  | musicOnly (track : MusicTrack) : AudioDirective
  | mixed (originalGain : ℚ) (track : MusicTrack) : AudioDirective
deriving DecidableEq

/-- Lines 280-300: when music is present (path given and the file
exists) it is processed and either mixed with the original audio
(`final.audio is not None`) or used alone; without music the original
audio, present or absent, is left as is. -/
def audioPlan (origPresent : Bool) (music : Option MusicIn) (finalDur vol : ℚ) :
    AudioDirective :=
  match music with
  | none => if origPresent then AudioDirective.passThrough else AudioDirective.silence
  | some m =>
    let track := processMusic m finalDur vol
    if origPresent then AudioDirective.mixed 1 track else AudioDirective.musicOnly track

/-- One retained segment with its placed overlays (lines 119-232). -/
structure SegmentUnit where
  span : ℚ × ℚ
  graphicsPlaced : List GPlaced
  captionsPlaced : List CPlaced
deriving DecidableEq

/-- The composed render graph handed to the encoding backend. -/
structure RenderGraph where
  intro : Bool
  units : List SegmentUnit
  outro : Bool
  crossfadeApplied : Option ℚ
  padding : ℚ
  audioDir : AudioDirective
deriving DecidableEq

/-- The configuration of one `edit` call that composition consumes:
`music` is `some` when a path is given and the file exists (line 280),
`introText`/`outroText` record whether title cards are requested, and
`videoHasAudio` whether the concatenated clip carries an audio track
(line 295). -/
structure EditOpts where
  music : Option MusicIn
  musicVolume : ℚ
  crossfade : ℚ
  introText : Bool
  outroText : Bool
  videoHasAudio : Bool
deriving DecidableEq

/-- The composition pipeline of `Editor.edit` (lines 80-313): default
segments, sort (may raise `KeyError`), clamp and drop, place overlays
per segment, insert title cards, cap the crossfade, and plan the audio.
`Except.ok none` is the `"No clips generated."` path returning `None`
(lines 311-313); the final duration of the concatenation with uniform
negative padding `pad` between `n` clips is `sum + pad * (n - 1)`. -/
def editModel (vd : ℚ) (p : Plan) (assets : ℕ → Bool) (o : EditOpts) :
    Except Unit (Option RenderGraph) :=
  match sortSegments (effectiveSegments vd p) with
  | Except.error e => Except.error e
  | Except.ok sorted =>
    let kept := clampFilter vd sorted
    if kept.isEmpty then Except.ok none
    else
      let units := kept.map (fun se =>
        ⟨se, graphicPlacements assets p.graphics se.1 se.2,
            captionPlacements p.captions se.1 se.2⟩)
      let durs := (if o.introText then [(3 : ℚ)] else [])
        ++ kept.map (fun se => se.2 - se.1)
        ++ (if o.outroText then [(3 : ℚ)] else [])
      let xf := plannedCrossfade o.crossfade durs
      let pad := -(xf.getD 0)
      let finalDur := durs.sum + pad * ((durs.length : ℚ) - 1)
      Except.ok (some ⟨o.introText, units, o.outroText, xf, pad,
        audioPlan o.videoHasAudio o.music finalDur o.musicVolume⟩)

/-- The contents of the caller's `analysis_data["segments"]` list after
`edit` returns: line 88 sorts the caller's own list in place whenever
the plan supplied a non-empty list; with an empty (or missing) list the
synthesized whole-video list is a fresh object and the caller's value is
untouched.  `Except.error` is the escaped `KeyError` case. -/
def planSegmentsAfter (p : Plan) : Except Unit (List RawSeg) :=
  if p.segments.isEmpty then Except.ok p.segments
  else sortSegments p.segments

/-! ### Specification-side definitions

These follow the wording of the spec (§4.1 and §4.3) rather than the
source; the claims compare them with the source-derived functions
above. -/

/-- Spec §4.1, by its words: clamp each entry, drop it if degenerate,
then stably sort the survivors by (clamped) start, ties keeping input
order. -/
def specSegmentClipper (vd : ℚ) (l : List RawSeg) : List (ℚ × ℚ) :=
  List.insertionSort (fun a b => a.1 ≤ b.1) (clampFilter vd l)

/-- Spec §4.3, by its words, for one graphic event: emit iff the overlap
duration is positive, with `relativeStart = max(0, eventStart - s)`. -/
def specPlaceGraphic (s e : ℚ) (x : ℕ × GraphicReq) : Option GPlaced :=
  if 0 < min (x.2.tsVal + x.2.durVal) e - max x.2.tsVal s then
    some ⟨x.1, max 0 (x.2.tsVal - s), min (x.2.tsVal + x.2.durVal) e - max x.2.tsVal s⟩
  else none

/-- Spec §4.3 for all graphics of the plan, in plan order. -/
def specGraphicPlacements (gs : List GraphicReq) (s e : ℚ) : List GPlaced :=
  gs.enum.filterMap (specPlaceGraphic s e)

/-- Spec §4.3 for one caption: emit iff the overlap duration exceeds the
0.5 s minimum caption duration. -/
def specPlaceCaption (s e : ℚ) (c : Caption) : Option CPlaced :=
  if 1/2 < min c.stopVal e - max c.startVal s then
    some ⟨max 0 (c.startVal - s), min c.stopVal e - max c.startVal s, c.text⟩
  else none

/-- Length of the overlap of `[es, ee)` with `[s, e)`, clamped at 0. -/
def overlapLen (es ee s e : ℚ) : ℚ := max 0 (min ee e - max es s)

/-- Sweep over spans sorted by start, counting each covered point once:
`hi` is the right edge of what earlier spans already covered. -/
def unionSweep (es ee : ℚ) : ℚ → List (ℚ × ℚ) → ℚ
  | _, [] => 0
  | hi, se :: rest =>
      overlapLen es ee (max se.1 hi) se.2 + unionSweep es ee (max hi se.2) rest

/-- Length of the overlap of `[es, ee)` with the set union of the given
spans (spec §8 property 2's "total overlap ... with the union"). -/
def unionOverlapLen (es ee : ℚ) (spans : List (ℚ × ℚ)) : ℚ :=
  unionSweep es ee es (List.insertionSort (fun a b => a.1 ≤ b.1) spans)

/-- Total placed duration, over all given segments, of the placements
derived from the graphic event with plan index `i`. -/
def placedDurFor (assets : ℕ → Bool) (gs : List GraphicReq)
    (kept : List (ℚ × ℚ)) (i : ℕ) : ℚ :=
  (kept.map (fun se =>
    (((graphicPlacements assets gs se.1 se.2).filter
        (fun pl => pl.idx == i)).map (fun pl => pl.dur)).sum)).sum

/-! ### Helper lemmas -/

instance : IsTotal RawSeg (fun a b => a.startVal ≤ b.startVal) :=
  ⟨fun a b => le_total a.startVal b.startVal⟩

instance : IsTrans RawSeg (fun a b => a.startVal ≤ b.startVal) :=
  ⟨fun _ _ _ hab hbc => le_trans hab hbc⟩

instance : IsTotal (ℚ × ℕ × GraphicReq) (fun a b => a.1 ≤ b.1) :=
  ⟨fun a b => le_total a.1 b.1⟩

instance : IsTrans (ℚ × ℕ × GraphicReq) (fun a b => a.1 ≤ b.1) :=
  ⟨fun _ _ _ hab hbc => le_trans hab hbc⟩

theorem take_length_takeWhile {α : Type} (p : α → Bool) (l : List α) :
    l.take (l.takeWhile p).length = l.takeWhile p := by
  induction l with
  | nil => rfl
  | cons a l ih =>
    cases hp : p a <;> simp [List.takeWhile_cons, hp, ih]

theorem takeWhile_eq_filter_of_pairwise {α : Type} {r : α → α → Prop} {p : α → Bool}
    (hmono : ∀ a b, r a b → p b = true → p a = true) :
    ∀ {l : List α}, l.Pairwise r → l.takeWhile p = l.filter p := by
  intro l hl
  induction l with
  | nil => rfl
  | cons a l ih =>
    rcases List.pairwise_cons.mp hl with ⟨ha, htl⟩
    cases hp : p a with
    | true => simp [List.takeWhile_cons, List.filter_cons, hp, ih htl]
    | false =>
      have hnil : l.filter p = [] := by
        refine List.filter_eq_nil_iff.mpr (fun b hb hpb => ?_)
        have := hmono a b (ha b hb) hpb
        simp [hp] at this
      simp [List.takeWhile_cons, List.filter_cons, hp, hnil]

theorem sortedGraphics_pairwise (gs : List GraphicReq) :
    (sortedGraphics gs).Pairwise (fun a b => a.1 ≤ b.1) :=
  List.sorted_insertionSort _ _

theorem take_bisect (gs : List GraphicReq) (e : ℚ) :
    (sortedGraphics gs).take (bisectLeft (gTimestamps gs) e)
      = (sortedGraphics gs).takeWhile (fun x => decide (x.1 < e)) := by
  have h : bisectLeft (gTimestamps gs) e
      = ((sortedGraphics gs).takeWhile (fun x => decide (x.1 < e))).length := by
    unfold bisectLeft gTimestamps
    rw [List.takeWhile_map]
    simp [Function.comp_def]
  rw [h, take_length_takeWhile]

theorem placeGraphic_eq_some {assets : ℕ → Bool} {s e : ℚ} {x : ℚ × ℕ × GraphicReq}
    {y : GPlaced} (h : placeGraphic assets s e x = some y) :
    assets x.2.1 = true ∧ y.idx = x.2.1 := by
  unfold placeGraphic at h
  split_ifs at h with h1 h2 h3
  exact ⟨h1, by cases h; rfl⟩

theorem specPlaceGraphic_eq_some {s e : ℚ} {x : ℕ × GraphicReq}
    {y : GPlaced} (h : specPlaceGraphic s e x = some y) : y.idx = x.1 := by
  unfold specPlaceGraphic at h
  split_ifs at h with h1
  cases h; rfl

theorem filter_filterMap_comm {α β : Type} {f : α → Option β} {p : β → Bool} {q : α → Bool}
    (h : ∀ x y, f x = some y → p y = q x) :
    ∀ l : List α, (l.filterMap f).filter p = (l.filter q).filterMap f := by
  intro l
  induction l with
  | nil => rfl
  | cons a l ih =>
    cases hfa : f a with
    | none =>
      cases hq : q a <;>
        simp [List.filterMap_cons, List.filter_cons, hfa, hq, ih]
    | some b =>
      have hpb : p b = q a := h a b hfa
      cases hq : q a <;>
        simp [List.filterMap_cons, List.filter_cons, hfa, hq, hpb, hq ▸ hpb, ih]

theorem placeGraphic_point {assets : ℕ → Bool} {s e : ℚ} (x : ℕ × GraphicReq)
    (ha : assets x.1 = true) :
    (if decide (x.2.tsVal < e) = true then placeGraphic assets s e (x.2.tsVal, x.1, x.2)
      else none) = specPlaceGraphic s e x := by
  unfold placeGraphic specPlaceGraphic
  by_cases hd : 0 < min (x.2.tsVal + x.2.durVal) e - max x.2.tsVal s
  · have hlt := sub_pos.mp hd
    have h1 : x.2.tsVal < e :=
      lt_of_le_of_lt (le_max_left _ _) (lt_of_lt_of_le hlt (min_le_right _ _))
    have h2 : s < x.2.tsVal + x.2.durVal :=
      lt_of_le_of_lt (le_max_right _ _) (lt_of_lt_of_le hlt (min_le_left _ _))
    simp [ha, h1, h2, hd]
  · by_cases h1 : x.2.tsVal < e <;> by_cases h2 : s < x.2.tsVal + x.2.durVal <;>
      simp [ha, h1, h2, hd]

theorem graphicPlacements_perm (assets : ℕ → Bool) (gs : List GraphicReq) (s e : ℚ)
    (h : ∀ i, assets i = true) :
    (graphicPlacements assets gs s e).Perm (specGraphicPlacements gs s e) := by
  unfold graphicPlacements
  rw [take_bisect,
    takeWhile_eq_filter_of_pairwise (p := fun x => decide (x.1 < e))
      (fun a b hab hb => by
        simp only [decide_eq_true_eq] at hb ⊢
        exact lt_of_le_of_lt hab hb)
      (sortedGraphics_pairwise gs)]
  have hperm : ((sortedGraphics gs).filter (fun x => decide (x.1 < e))).Perm
      ((graphicEntries gs).filter (fun x => decide (x.1 < e))) :=
    (List.perm_insertionSort _ (graphicEntries gs)).filter _
  refine (hperm.filterMap (placeGraphic assets s e)).trans ?_
  rw [List.filterMap_filter]
  unfold graphicEntries
  rw [List.filterMap_map]
  unfold specGraphicPlacements
  have heq : ∀ p ∈ gs.enum,
      ((fun x : ℚ × ℕ × GraphicReq =>
          if decide (x.1 < e) = true then placeGraphic assets s e x else none) ∘
        fun p : ℕ × GraphicReq => (p.2.tsVal, p.1, p.2)) p = specPlaceGraphic s e p := by
    intro p _
    exact placeGraphic_point p (h p.1)
  rw [List.filterMap_congr heq]

theorem enumFrom_filter_lt {α : Type} (l : List α) (n i : ℕ) (h : i < n) :
    (List.enumFrom n l).filter (fun x => x.1 == i) = [] := by
  induction l generalizing n with
  | nil => rfl
  | cons a l ih =>
    have hne : (n == i) = false := by
      simp only [beq_eq_false_iff_ne]
      exact fun hni => absurd (hni ▸ h) (lt_irrefl _)
    simp [List.enumFrom, List.filter_cons, hne, ih (n + 1) (Nat.lt_succ_of_lt h)]

theorem enumFrom_filter_get {α : Type} (l : List α) (n k : ℕ) :
    (List.enumFrom n l).filter (fun x => x.1 == n + k)
      = (l[k]?).elim [] (fun a => [(n + k, a)]) := by
  induction l generalizing n k with
  | nil => rfl
  | cons a l ih =>
    cases k with
    | zero =>
      rw [Nat.add_zero]
      have hrest : (List.enumFrom (n + 1) l).filter (fun x => x.1 == n) = [] :=
        enumFrom_filter_lt l (n + 1) n (by omega)
      simp [List.enumFrom, List.filter_cons, hrest, Option.elim]
    | succ k =>
      rw [show n + (k + 1) = n + 1 + k by omega]
      have h0 : (n == n + 1 + k) = false := by
        simp only [beq_eq_false_iff_ne]
        omega
      simp [List.enumFrom, List.filter_cons, h0, ih (n + 1) k]

theorem spec_filter_idx (gs : List GraphicReq) (s e : ℚ) (i : ℕ) :
    (specGraphicPlacements gs s e).filter (fun pl => pl.idx == i)
      = (gs[i]?).elim [] (fun req => (specPlaceGraphic s e (i, req)).elim [] (fun pl => [pl])) := by
  unfold specGraphicPlacements
  rw [filter_filterMap_comm (q := fun x : ℕ × GraphicReq => x.1 == i)
    (fun x y hxy => by rw [specPlaceGraphic_eq_some hxy])]
  have henum : (gs.enum).filter (fun x => x.1 == i)
      = (gs[i]?).elim [] (fun a => [(i, a)]) := by
    have := enumFrom_filter_get gs 0 i
    simpa [List.enum] using this
  rw [henum]
  cases hreq : gs[i]? with
  | none => rfl
  | some req =>
    simp only [Option.elim]
    cases hpl : specPlaceGraphic s e (i, req) with
    | none => simp [List.filterMap_cons, hpl]
    | some pl => simp [List.filterMap_cons, hpl]

theorem placeGraphic_assets_eq {assets assets2 : ℕ → Bool} (s e : ℚ)
    (x : ℚ × ℕ × GraphicReq) (h : assets x.2.1 = assets2 x.2.1) :
    placeGraphic assets s e x = placeGraphic assets2 s e x := by
  unfold placeGraphic
  rw [h]

theorem filter_idx_graphicPlacements (assets assets2 : ℕ → Bool) (gs : List GraphicReq)
    (s e : ℚ) (i : ℕ) (h : assets i = assets2 i) :
    (graphicPlacements assets gs s e).filter (fun pl => pl.idx == i)
      = (graphicPlacements assets2 gs s e).filter (fun pl => pl.idx == i) := by
  unfold graphicPlacements
  rw [filter_filterMap_comm (q := fun x : ℚ × ℕ × GraphicReq => x.2.1 == i)
      (fun x y hxy => by rw [(placeGraphic_eq_some hxy).2]),
    filter_filterMap_comm (q := fun x : ℚ × ℕ × GraphicReq => x.2.1 == i)
      (fun x y hxy => by rw [(placeGraphic_eq_some hxy).2])]
  refine List.filterMap_congr (fun x hx => ?_)
  have hxi : x.2.1 = i := by simpa using (List.mem_filter.mp hx).2
  exact placeGraphic_assets_eq s e x (by rw [hxi]; exact h)

theorem filter_not_idx_graphicPlacements {assets assets2 : ℕ → Bool} (gs : List GraphicReq)
    (s e : ℚ) (i : ℕ) (h : ∀ j, j ≠ i → assets j = assets2 j) :
    (graphicPlacements assets gs s e).filter (fun pl => !(pl.idx == i))
      = (graphicPlacements assets2 gs s e).filter (fun pl => !(pl.idx == i)) := by
  unfold graphicPlacements
  rw [filter_filterMap_comm (q := fun x : ℚ × ℕ × GraphicReq => !(x.2.1 == i))
      (fun x y hxy => by rw [(placeGraphic_eq_some hxy).2]),
    filter_filterMap_comm (q := fun x : ℚ × ℕ × GraphicReq => !(x.2.1 == i))
      (fun x y hxy => by rw [(placeGraphic_eq_some hxy).2])]
  refine List.filterMap_congr (fun x hx => ?_)
  have hxi : x.2.1 ≠ i := by simpa using (List.mem_filter.mp hx).2
  exact placeGraphic_assets_eq s e x (h _ hxi)

theorem graphicPlacements_absent {assets : ℕ → Bool} (gs : List GraphicReq) (s e : ℚ)
    (i : ℕ) (h : assets i = false) :
    (graphicPlacements assets gs s e).filter (fun pl => pl.idx == i) = [] := by
  refine List.filter_eq_nil_iff.mpr (fun pl hpl hbeq => ?_)
  unfold graphicPlacements at hpl
  rcases List.mem_filterMap.mp hpl with ⟨x, _, hx⟩
  rcases placeGraphic_eq_some hx with ⟨hasset, hidx⟩
  have hpi : pl.idx = i := by simpa using hbeq
  rw [hidx] at hpi
  rw [hpi, h] at hasset
  exact Bool.false_ne_true hasset

theorem sum_filter_idx {assets : ℕ → Bool} (gs : List GraphicReq) (s e : ℚ)
    (i : ℕ) (req : GraphicReq) (hreq : gs[i]? = some req) (ha : assets i = true) :
    (((graphicPlacements assets gs s e).filter (fun pl => pl.idx == i)).map
        (fun pl => pl.dur)).sum
      = overlapLen req.tsVal (req.tsVal + req.durVal) s e := by
  rw [filter_idx_graphicPlacements assets (fun _ => true) gs s e i (by simp [ha])]
  have hperm := ((graphicPlacements_perm (fun _ => true) gs s e
      (fun _ => rfl)).filter (fun pl => pl.idx == i)).map (fun pl => pl.dur)
  rw [hperm.sum_eq, spec_filter_idx, hreq]
  unfold specPlaceGraphic overlapLen
  by_cases hd : 0 < min (req.tsVal + req.durVal) e - max req.tsVal s
  · have hmax : max 0 (min (req.tsVal + req.durVal) e - max req.tsVal s)
        = min (req.tsVal + req.durVal) e - max req.tsVal s := max_eq_right hd.le
    simp [hd, Option.elim, hmax]
  · have hmax : max 0 (min (req.tsVal + req.durVal) e - max req.tsVal s) = 0 :=
      max_eq_left (not_lt.mp hd)
    simp [hd, Option.elim, hmax]

/-! ### Claims -/

/-- Claim C1: for every retained KeepSegment `[s, e)` and every graphic or
caption overlay event, the engine emits a placement with
`relativeStart = max(0, eventStart - s)` and
`duration = min(eventEnd, e) - max(eventStart, s)`; a graphic placement
is emitted iff `duration > 0` (given its asset is present) and a caption
placement iff `duration > 0.5` (given non-empty text), one placement per
segment the event overlaps; and in the scenario with segments
`[{0,5},{5,10}]` and graphic `{timestamp: 4, duration: 3}`, segment 0
gets `{relativeStart: 4, duration: 1}` and segment 1 gets
`{relativeStart: 0, duration: 2}`. -/
theorem claim_C1_overlay_placement (gs : List GraphicReq) (caps : List Caption)
    (assets : ℕ → Bool) (s e : ℚ) (h : ∀ i, assets i = true) :
    (graphicPlacements assets gs s e).Perm (specGraphicPlacements gs s e) ∧
    (∀ i, ((graphicPlacements assets gs s e).filter (fun pl => pl.idx == i)).length ≤ 1) ∧
    (∀ c ∈ caps, c.text ≠ "" → placeCaption s e c = specPlaceCaption s e c) ∧
    clampFilter 10 [⟨some 0, some 5⟩, ⟨some 5, some 10⟩] = [(0, 5), (5, 10)] ∧
    graphicPlacements (fun _ => true) [⟨some 4, some 3⟩] 0 5 = [⟨0, 4, 1⟩] ∧
    graphicPlacements (fun _ => true) [⟨some 4, some 3⟩] 5 10 = [⟨0, 0, 2⟩] := by
  refine ⟨graphicPlacements_perm assets gs s e h, ?_, ?_, ?_, ?_, ?_⟩
  · intro i
    rw [((graphicPlacements_perm assets gs s e h).filter (fun pl => pl.idx == i)).length_eq,
      spec_filter_idx]
    rcases hgs : gs[i]? with _ | req
    · simp [Option.elim]
    · rcases hpl : specPlaceGraphic s e (i, req) with _ | pl <;> simp [hpl, Option.elim]
  · intro c _ htext
    unfold placeCaption specPlaceCaption
    rw [if_neg htext]
    by_cases hd : 1/2 < min c.stopVal e - max c.startVal s
    · have h0 : (0 : ℚ) < min c.stopVal e - max c.startVal s := lt_trans (by norm_num) hd
      have hlt := sub_pos.mp h0
      have h1 : s < c.stopVal :=
        lt_of_le_of_lt (le_max_right _ _) (lt_of_lt_of_le hlt (min_le_left _ _))
      have h2 : c.startVal < e :=
        lt_of_le_of_lt (le_max_left _ _) (lt_of_lt_of_le hlt (min_le_right _ _))
      simp [h1, h2, hd]
    · by_cases h1 : s < c.stopVal ∧ c.startVal < e
      · rw [if_pos h1, if_neg hd]
      · rw [if_neg h1, if_neg hd]
  · norm_num [clampFilter, clampSeg, RawSeg.startVal, RawSeg.stopVal, List.filter_cons,
      max_def, min_def]
  · norm_num [graphicPlacements, sortedGraphics, graphicEntries, gTimestamps, bisectLeft,
      placeGraphic, GraphicReq.tsVal, GraphicReq.durVal, List.insertionSort,
      List.orderedInsert, List.enum, List.enumFrom, List.takeWhile_cons,
      List.filterMap_cons, max_def, min_def]
  · norm_num [graphicPlacements, sortedGraphics, graphicEntries, gTimestamps, bisectLeft,
      placeGraphic, GraphicReq.tsVal, GraphicReq.durVal, List.insertionSort,
      List.orderedInsert, List.enum, List.enumFrom, List.takeWhile_cons,
      List.filterMap_cons, max_def, min_def]

/-- Witness for C1 at a concrete input: one graphic, one caption, all
assets present, segment `[0, 5)`. -/
theorem claim_C1_witness :
    (graphicPlacements (fun _ => true) [⟨some 4, some 3⟩] 0 5).Perm
        (specGraphicPlacements [⟨some 4, some 3⟩] 0 5) ∧
    (∀ i, ((graphicPlacements (fun _ => true) [⟨some 4, some 3⟩] 0 5).filter
        (fun pl => pl.idx == i)).length ≤ 1) ∧
    (∀ c ∈ [(⟨some 1, some 4, "hi"⟩ : Caption)], c.text ≠ "" →
        placeCaption 0 5 c = specPlaceCaption 0 5 c) ∧
    clampFilter 10 [⟨some 0, some 5⟩, ⟨some 5, some 10⟩] = [(0, 5), (5, 10)] ∧
    graphicPlacements (fun _ => true) [⟨some 4, some 3⟩] 0 5 = [⟨0, 4, 1⟩] ∧
    graphicPlacements (fun _ => true) [⟨some 4, some 3⟩] 5 10 = [⟨0, 0, 2⟩] :=
  claim_C1_overlay_placement [⟨some 4, some 3⟩] [⟨some 1, some 4, "hi"⟩]
    (fun _ => true) 0 5 (fun _ => rfl)

/-- Claim C2 (as stated) is false at this input: with requested crossfade 1
and two clips of 1/20 s each, the code applies
`min(1, max(0, 1/20 - 0.1)) = 0`, while the claim's formula
`min(c, d - ε) = -1/20` is not 0, so "applied crossfade equals
min(c, d − ε)" and "never negative" cannot both hold. -/
theorem claim_C2_counterexample :
    plannedCrossfade 1 [1/20, 1/20] = some 0 ∧
    min (1 : ℚ) (listMin [1/20, 1/20] - 1/10) ≠ 0 := by
  constructor
  · norm_num [plannedCrossfade, listMin, min_def, max_def]
  · norm_num [listMin, min_def]

/-- Claim C2 (amended): if the requested crossfade is 0 or there are fewer
than two clips, no transitions are applied; otherwise every adjacent pair
receives the same applied crossfade `min(c, max(0, d - ε))` with
`ε = 0.1` and `d` the global minimum clip duration, which is never
negative (the inner `max` clamps the cap at zero when `d < ε`). -/
theorem claim_C2_crossfade_capping (c : ℚ) (durs : List ℚ) (hc : 0 ≤ c) :
    ((c = 0 ∨ durs.length < 2) → plannedCrossfade c durs = none) ∧
    (0 < c → 2 ≤ durs.length →
      plannedCrossfade c durs = some (min c (max 0 (listMin durs - 1/10))) ∧
      0 ≤ min c (max 0 (listMin durs - 1/10))) := by
  constructor
  · rintro (rfl | hlen)
    · simp [plannedCrossfade]
    · unfold plannedCrossfade
      rw [if_neg]
      rintro ⟨-, hlen2⟩
      omega
  · intro hpos hlen
    refine ⟨?_, le_min hc (le_max_left _ _)⟩
    unfold plannedCrossfade
    rw [if_pos ⟨hpos, by omega⟩]

/-- Witness for C2 at crossfade 1 and clip durations `[3, 4]`. -/
theorem claim_C2_witness :
    (((1 : ℚ) = 0 ∨ ([(3 : ℚ), 4]).length < 2) → plannedCrossfade 1 [3, 4] = none) ∧
    (0 < (1 : ℚ) → 2 ≤ ([(3 : ℚ), 4]).length →
      plannedCrossfade 1 [3, 4] = some (min 1 (max 0 (listMin [3, 4] - 1/10))) ∧
      0 ≤ min 1 (max 0 (listMin [(3 : ℚ), 4] - 1/10))) :=
  claim_C2_crossfade_capping 1 [3, 4] (by norm_num)

/-- Claim C3: the audio planner is total over the four presence
combinations and returns exactly the table's variant (Silence,
PassThrough, MusicOnly, Mixed) without any failure path; the music is
looped exactly when shorter than the final duration, otherwise trimmed,
in both cases to exactly the final duration; the volume gain is applied
only to the music track (the original keeps unit gain in the mixed
case); and with original audio absent, 5 s music and 20 s final
duration, the outcome is MusicOnly with the music looped to 20 s. -/
theorem claim_C3_audio_table : ∀ (fd vol : ℚ) (m : MusicIn),
    audioPlan false none fd vol = AudioDirective.silence ∧
    audioPlan true none fd vol = AudioDirective.passThrough ∧
    audioPlan false (some m) fd vol = AudioDirective.musicOnly (processMusic m fd vol) ∧
    audioPlan true (some m) fd vol = AudioDirective.mixed 1 (processMusic m fd vol) ∧
    (processMusic m fd vol).len = fd ∧
    (processMusic m fd vol).looped = decide (m.duration < fd) ∧
    (processMusic m fd vol).gain = vol ∧
    audioPlan false (some ⟨5⟩) 20 (1/10)
      = AudioDirective.musicOnly ⟨20, true, 1/10, 0, 0⟩ := by
  intro fd vol m
  refine ⟨rfl, rfl, rfl, rfl, ?_, ?_, ?_, ?_⟩
  · unfold processMusic
    split_ifs <;> rfl
  · unfold processMusic
    split_ifs with h <;> simp [h]
  · unfold processMusic
    split_ifs <;> rfl
  · norm_num [audioPlan, processMusic]

/-- Claim C8 (code bug): with music present the source only loops/trims
and volume-scales the music track (editor.py lines 283-300) and applies
no fade effect at all, so the fade envelope on the processed track is
0 s on both sides, not the claimed default of 2.0 s. -/
theorem claim_C8_no_music_fade :
    audioPlan true (some ⟨5⟩) 20 (1/10) = AudioDirective.mixed 1 ⟨20, true, 1/10, 0, 0⟩
      ∧ (0 : ℚ) ≠ 2 := by
  constructor
  · norm_num [audioPlan, processMusic]
  · norm_num

/-- Claim C9: a graphic whose index has no usable asset (no entry in the
map, or a path that does not exist) yields no placements in any segment,
and the placements of every other event are unchanged by that asset's
absence; a missing asset handle is never fatal. -/
theorem claim_C9_missing_asset (gs : List GraphicReq) (assets assets2 : ℕ → Bool)
    (i : ℕ) (s e : ℚ) (h : assets i = false)
    (hag : ∀ j, j ≠ i → assets j = assets2 j) :
    (graphicPlacements assets gs s e).filter (fun pl => pl.idx == i) = [] ∧
    (graphicPlacements assets gs s e).filter (fun pl => !(pl.idx == i))
      = (graphicPlacements assets2 gs s e).filter (fun pl => !(pl.idx == i)) :=
  ⟨graphicPlacements_absent gs s e i h,
    filter_not_idx_graphicPlacements gs s e i hag⟩

/-- Witness for C9: asset 0 absent versus present, one graphic event. -/
theorem claim_C9_witness :
    (graphicPlacements (fun _ => false) [⟨some 4, some 3⟩] 0 5).filter
        (fun pl => pl.idx == 0) = [] ∧
    (graphicPlacements (fun _ => false) [⟨some 4, some 3⟩] 0 5).filter
        (fun pl => !(pl.idx == 0))
      = (graphicPlacements (fun j => j == 0) [⟨some 4, some 3⟩] 0 5).filter
        (fun pl => !(pl.idx == 0)) :=
  claim_C9_missing_asset [⟨some 4, some 3⟩] (fun _ => false) (fun j => j == 0) 0 0 5
    rfl (fun j hj => by simp [hj])

/-- Claim C4 (counterexample): the plan whose only segment is the
degenerate `{start: 5, end: 2}` has a non-empty segment list, yet the
clipper retains nothing — no fallback `[0, 10]` segment is emitted — and
the whole edit returns no render graph. -/
theorem claim_C4_counterexample :
    editModel 10 ⟨[⟨some 5, some 2⟩], [], []⟩ (fun _ => false)
        ⟨none, 1/10, 0, false, false, false⟩ = Except.ok none ∧
    clampFilter 10 (effectiveSegments 10 ⟨[⟨some 5, some 2⟩], [], []⟩) = [] ∧
    ([] : List (ℚ × ℚ)) ≠ [(0, 10)] := by
  refine ⟨?_, ?_, by simp⟩
  · norm_num [editModel, effectiveSegments, sortSegments, clampFilter, clampSeg,
      RawSeg.startVal, RawSeg.stopVal, List.insertionSort, List.orderedInsert,
      List.filter_cons, max_def, min_def]
  · norm_num [effectiveSegments, clampFilter, clampSeg, RawSeg.startVal,
      RawSeg.stopVal, List.filter_cons, max_def, min_def]

/-- Claim C4 (amended): the fallback whole-video segment is synthesized
only when the plan's segment list is empty; a non-empty list whose
entries are all degenerate after clamping yields zero retained segments,
and the edit returns no render graph (`None`, the
`"No clips generated."` path) instead of the fallback segment. -/
theorem claim_C4_degenerate_fallback (vd : ℚ) (p : Plan) (assets : ℕ → Bool)
    (o : EditOpts) (h1 : p.segments.isEmpty = false)
    (h2 : ∀ s ∈ p.segments, s.start?.isSome)
    (h3 : ∀ s ∈ p.segments, (clampSeg vd s).2 ≤ (clampSeg vd s).1) :
    editModel vd p assets o = Except.ok none := by
  unfold editModel
  have heff : effectiveSegments vd p = p.segments := by
    unfold effectiveSegments
    rw [if_neg (by simp [h1])]
  rw [heff]
  unfold sortSegments
  rw [if_pos h2]
  have hkept : clampFilter vd
      (List.insertionSort (fun a b => a.startVal ≤ b.startVal) p.segments) = [] := by
    unfold clampFilter
    refine List.filter_eq_nil_iff.mpr (fun se hse hlt => ?_)
    rcases List.mem_map.mp hse with ⟨s', hs', rfl⟩
    have hmem : s' ∈ p.segments := (List.perm_insertionSort _ _).subset hs'
    exact absurd (by simpa using hlt) (not_lt.mpr (h3 s' hmem))
  simp [hkept]

/-- Witness for C4: one degenerate segment `{start: 5, end: 2}` with
source duration 10. -/
theorem claim_C4_witness :
    editModel 10 ⟨[⟨some 5, some 2⟩], [], []⟩ (fun _ => true)
      ⟨none, 1/10, 0, false, false, false⟩ = Except.ok none :=
  claim_C4_degenerate_fallback 10 ⟨[⟨some 5, some 2⟩], [], []⟩ (fun _ => true)
    ⟨none, 1/10, 0, false, false, false⟩ rfl (by decide)
    (by
      intro s hs
      simp only [List.mem_singleton] at hs
      subst hs
      norm_num [clampSeg, RawSeg.startVal, RawSeg.stopVal, max_def, min_def])

/-- Claim C5 (counterexample): on raw entries
`[{start: -1, end: 2}, {start: -3, end: 1}]` the code sorts by RAW start
before clamping, producing `[(0,1), (0,2)]`, while clamping first and
then stably sorting (ties keep input order), as the claim states, gives
`[(0,2), (0,1)]`. -/
theorem claim_C5_counterexample :
    codeSegmentClipper 10 [⟨some (-1), some 2⟩, ⟨some (-3), some 1⟩]
      = Except.ok [(0, 1), (0, 2)] ∧
    specSegmentClipper 10 [⟨some (-1), some 2⟩, ⟨some (-3), some 1⟩]
      = [(0, 2), (0, 1)] ∧
    (Except.ok [((0 : ℚ), (1 : ℚ)), (0, 2)] : Except Unit (List (ℚ × ℚ)))
      ≠ Except.ok [(0, 2), (0, 1)] := by
  refine ⟨?_, ?_, by norm_num⟩
  · norm_num [codeSegmentClipper, sortSegments, clampFilter, clampSeg,
      RawSeg.startVal, RawSeg.stopVal, List.insertionSort, List.orderedInsert,
      List.filter_cons, max_def, min_def]
  · norm_num [specSegmentClipper, clampFilter, clampSeg, RawSeg.startVal,
      RawSeg.stopVal, List.insertionSort, List.orderedInsert,
      List.filter_cons, max_def, min_def]

/-- Claim C5 (amended): the clipper sorts the raw entries by their raw
start value (stably) before clamping, then clamps and drops degenerate
entries; the output is therefore a permutation of the clamped survivors
and is sorted by clamped start ascending, but entries whose clamped
starts coincide only because of clamping are ordered by raw start, not
by input position. -/
theorem claim_C5_clipper (vd : ℚ) (raw : List RawSeg) (out : List (ℚ × ℚ))
    (h : ∀ s ∈ raw, s.start?.isSome)
    (hout : codeSegmentClipper vd raw = Except.ok out) :
    out.Perm (clampFilter vd raw) ∧ out.Pairwise (fun a b => a.1 ≤ b.1) := by
  unfold codeSegmentClipper sortSegments at hout
  rw [if_pos h] at hout
  cases hout
  constructor
  · unfold clampFilter
    exact ((List.perm_insertionSort _ raw).map (clampSeg vd)).filter _
  · unfold clampFilter
    refine List.Pairwise.filter _ ?_
    refine List.Pairwise.map _ (fun a b hab => ?_) (List.sorted_insertionSort _ raw)
    exact max_le_max le_rfl hab

/-- Witness for C5 at the counterexample input. -/
theorem claim_C5_witness :
    ([((0 : ℚ), (1 : ℚ)), (0, 2)]).Perm
        (clampFilter 10 [⟨some (-1), some 2⟩, ⟨some (-3), some 1⟩]) ∧
    ([((0 : ℚ), (1 : ℚ)), (0, 2)]).Pairwise (fun a b => a.1 ≤ b.1) :=
  claim_C5_clipper 10 [⟨some (-1), some 2⟩, ⟨some (-3), some 1⟩] [(0, 1), (0, 2)]
    (by decide)
    (by norm_num [codeSegmentClipper, sortSegments, clampFilter, clampSeg,
      RawSeg.startVal, RawSeg.stopVal, List.insertionSort, List.orderedInsert,
      List.filter_cons, max_def, min_def])

/-- Claim C6 (counterexample): with the duplicated KeepSegments
`[0,10), [0,10)` (overlapping segments are legal and rendered
independently) and the graphic event spanning `[2, 4)`, the sum of
placed durations is 4 — the event is placed once per segment — while the
overlap of `[2, 4)` with the union of the KeepSegments is 2. -/
theorem claim_C6_counterexample :
    placedDurFor (fun _ => true) [⟨some 2, some 2⟩]
        (clampFilter 10 [⟨some 0, some 10⟩, ⟨some 0, some 10⟩]) 0 = 4 ∧
    unionOverlapLen 2 4 (clampFilter 10 [⟨some 0, some 10⟩, ⟨some 0, some 10⟩]) = 2 ∧
    (4 : ℚ) ≠ 2 := by
  refine ⟨?_, ?_, by norm_num⟩
  · norm_num [placedDurFor, graphicPlacements, sortedGraphics, graphicEntries,
      gTimestamps, bisectLeft, placeGraphic, GraphicReq.tsVal, GraphicReq.durVal,
      List.insertionSort, List.orderedInsert, List.enum, List.enumFrom,
      List.takeWhile_cons, List.filterMap_cons, clampFilter, clampSeg,
      RawSeg.startVal, RawSeg.stopVal, List.filter_cons, max_def, min_def]
  · norm_num [unionOverlapLen, unionSweep, overlapLen, clampFilter, clampSeg,
      RawSeg.startVal, RawSeg.stopVal, List.insertionSort, List.orderedInsert,
      List.filter_cons, max_def, min_def]

/-- Claim C6 (amended): for every graphic event whose asset is present,
the sum of placed durations across all segments equals the sum over the
KeepSegments of the overlap of the event span with each segment taken
individually; a portion of the event covered by several KeepSegments is
counted once per covering segment, so this agrees with the overlap
against the union of the KeepSegments only when they are pairwise
disjoint. -/
theorem claim_C6_coverage (assets : ℕ → Bool) (gs : List GraphicReq)
    (kept : List (ℚ × ℚ)) (i : ℕ) (req : GraphicReq)
    (hreq : gs[i]? = some req) (ha : assets i = true) :
    placedDurFor assets gs kept i
      = (kept.map (fun se =>
          overlapLen req.tsVal (req.tsVal + req.durVal) se.1 se.2)).sum := by
  unfold placedDurFor
  exact congrArg List.sum (List.map_congr_left
    (fun se _ => sum_filter_idx gs se.1 se.2 i req hreq ha))

/-- Witness for C6 at the duplicated-segment input. -/
theorem claim_C6_witness :
    placedDurFor (fun _ => true) [⟨some 2, some 2⟩] [(0, 10), (0, 10)] 0
      = (([((0 : ℚ), (10 : ℚ)), (0, 10)]).map (fun se =>
          overlapLen (GraphicReq.mk (some 2) (some 2)).tsVal
            ((GraphicReq.mk (some 2) (some 2)).tsVal
              + (GraphicReq.mk (some 2) (some 2)).durVal) se.1 se.2)).sum :=
  claim_C6_coverage (fun _ => true) [⟨some 2, some 2⟩] [(0, 10), (0, 10)] 0
    ⟨some 2, some 2⟩ rfl rfl

/-- Claim C7 (code bug): a plan with a segment entry lacking its `start`
field makes line 88's sort key lookup raise `KeyError` before the
per-entry defaulting of lines 107-110 can substitute a default; the
exception escapes `edit`, so this malformed plan is fatal. -/
theorem claim_C7_malformed_plan_raises :
    editModel 10 ⟨[⟨none, some 5⟩], [], []⟩ (fun _ => false)
      ⟨none, 1/10, 0, false, false, false⟩ = Except.error () := by
  norm_num [editModel, effectiveSegments, sortSegments]

/-- Claim C10 (counterexample): `edit` sorts the caller's segments list
in place (line 88), so a plan given with segments
`[{start: 5, end: 6}, {start: 0, end: 1}]` holds
`[{start: 0, end: 1}, {start: 5, end: 6}]` after the call — not its
original entries in their original order. -/
theorem claim_C10_counterexample :
    planSegmentsAfter ⟨[⟨some 5, some 6⟩, ⟨some 0, some 1⟩], [], []⟩
      = Except.ok [⟨some 0, some 1⟩, ⟨some 5, some 6⟩] ∧
    (Except.ok [(⟨some 0, some 1⟩ : RawSeg), ⟨some 5, some 6⟩]
        : Except Unit (List RawSeg))
      ≠ Except.ok [⟨some 5, some 6⟩, ⟨some 0, some 1⟩] := by
  constructor
  · norm_num [planSegmentsAfter, sortSegments, RawSeg.startVal,
      List.insertionSort, List.orderedInsert]
  · intro hcontra
    have := Except.ok.inj hcontra
    simp at this

/-- Claim C10 (amended): after a successful call the caller's segments
list holds its original entries permuted into ascending raw-start order
(the in-place sort of line 88), and it is unchanged exactly when it was
already sorted by start; all other structures the engine builds are
derived. -/
theorem claim_C10_plan_after (p : Plan) (l : List RawSeg)
    (h : ∀ s ∈ p.segments, s.start?.isSome)
    (hl : planSegmentsAfter p = Except.ok l) :
    l.Perm p.segments ∧
    (List.Sorted (fun a b : RawSeg => a.startVal ≤ b.startVal) p.segments →
      l = p.segments) := by
  unfold planSegmentsAfter at hl
  by_cases hemp : p.segments.isEmpty
  · rw [if_pos hemp] at hl
    cases hl
    exact ⟨List.Perm.refl _, fun _ => rfl⟩
  · rw [if_neg hemp] at hl
    unfold sortSegments at hl
    rw [if_pos h] at hl
    cases hl
    exact ⟨List.perm_insertionSort _ _, fun hs => hs.insertionSort_eq⟩

/-- Witness for C10 at the counterexample input: the sorted list is a
permutation of the caller's entries. -/
theorem claim_C10_witness :
    ([(⟨some 0, some 1⟩ : RawSeg), ⟨some 5, some 6⟩]).Perm
        (Plan.mk [⟨some 5, some 6⟩, ⟨some 0, some 1⟩] [] []).segments ∧
    (List.Sorted (fun a b : RawSeg => a.startVal ≤ b.startVal)
        (Plan.mk [⟨some 5, some 6⟩, ⟨some 0, some 1⟩] [] []).segments →
      [(⟨some 0, some 1⟩ : RawSeg), ⟨some 5, some 6⟩]
        = (Plan.mk [⟨some 5, some 6⟩, ⟨some 0, some 1⟩] [] []).segments) :=
  claim_C10_plan_after ⟨[⟨some 5, some 6⟩, ⟨some 0, some 1⟩], [], []⟩
    [⟨some 0, some 1⟩, ⟨some 5, some 6⟩] (by decide)
    (by norm_num [planSegmentsAfter, sortSegments, RawSeg.startVal,
      List.insertionSort, List.orderedInsert])

end VideoEdit
